import Mathlib

/-
Verification development for the ETL pipeline in src/etl.py and the HTTP
surface in src/main.py, as a shallow embedding in Lean.

Conventions of the embedding:
- A DynamoDB item (raw record) is an association list of attribute name to
  attribute value; values are embedded as opaque strings.
- datetime.now() is impure; the per-iteration formatted timestamp is passed
  in as an oracle  now : Nat -> String  giving iteration i its formatted
  wall-clock string.
- Python exceptions become an ETLError value in an Except result.
- External backends (the DynamoDB scan engine, the Redshift statement
  engine) are oracles: the scan engine is given by its page sequence, the
  statement engine by a semantics function that may fail.
-/

/-- A raw record returned by the source-store scan: an attribute-name to
value mapping, embedded as an association list. -/
abbrev Record := List (String × String)

/-- Attribute lookup in a raw record: embeds Python dict access
(item.get(key) returns None when the key is missing). -/
def getAttr : List (String × String) → String → Option String
  | [], _ => none
  | (k, v) :: rest, key => if k = key then some v else getAttr rest key

/-- The transformed envelope built by DataExtraction.transform_data: the
structure has exactly the five fields of the Python dict literal. -/
structure TransformedItem where
  row_id : String
  data : List (String × String)
  created : Option String
  updated : String
  isDeleted : Bool
  deriving DecidableEq, Repr

/-- Errors of the pipeline. keyError embeds a Python KeyError raised by
item[pk]; unboundLocalError embeds the UnboundLocalError raised when a
local variable is read before any assignment; schemaError is the dedicated
schema-discovery error named by the specification taxonomy (the code never
raises it; it is included so that statements can compare against it). -/
inductive ETLError where
  | keyError : String → ETLError
  | unboundLocalError : String → ETLError
  | schemaError : ETLError
  deriving DecidableEq, Repr

/-- One iteration of the transform loop body: item[pk] raises KeyError when
the partition-key attribute is missing; otherwise the five-field envelope
is built, with created from item.get("created", None) and updated from the
formatted wall clock of this iteration. -/
def transform_item (pk : String) (now_i : String) (item : List (String × String)) :
    Except ETLError TransformedItem :=
  match getAttr item pk with
  | none => Except.error (ETLError.keyError pk)
  | some v =>
      Except.ok { row_id := v, data := item, created := getAttr item "created",
                  updated := now_i, isDeleted := false }

/-- The loop of DataExtraction.transform_data, with the iteration index
threaded so each item sees its own wall-clock reading. The first KeyError
aborts the loop, as the Python exception does. -/
def transform_loop (pk : String) (now : Nat → String) :
    Nat → List (List (String × String)) → Except ETLError (List TransformedItem)
  | _, [] => Except.ok []
  | i, item :: rest =>
    match transform_item pk (now i) item with
    | Except.error e => Except.error e
    | Except.ok t =>
      match transform_loop pk now (i + 1) rest with
      | Except.error e => Except.error e
      | Except.ok ts => Except.ok (t :: ts)

/-- DataExtraction.transform_data. -/
def transform_data (items : List (List (String × String))) (pk : String)
    (now : Nat → String) : Except ETLError (List TransformedItem) :=
  transform_loop pk now 0 items

/-- A scan response of the source store: a page of items plus an optional
continuation token (LastEvaluatedKey), embedded as the next page index. -/
structure ScanResponse where
  items : List (List (String × String))
  lastEvaluatedKey : Option Nat
  deriving Repr

/-- The source-store scan engine, modelled by the page sequence it serves:
page i carries a continuation token exactly when a page follows it. -/
def scanPage (pages : List (List Record)) (i : Nat) : ScanResponse :=
  { items := pages.getD i [],
    lastEvaluatedKey := if i + 1 < pages.length then some (i + 1) else none }

/-- The while loop of DataExtraction.pull_data_from_dynamo: while the last
response carries a LastEvaluatedKey, scan again from it and extend the
accumulated data. Fuel bounds the iteration count; the count of scan
requests made so far is threaded alongside the data. -/
def scan_loop (pages : List (List Record)) :
    Nat → ScanResponse → List Record → Nat → List Record × Nat
  | 0, _, data, cnt => (data, cnt)
  | fuel + 1, response, data, cnt =>
    match response.lastEvaluatedKey with
    | none => (data, cnt)
    | some k =>
      let r := scanPage pages k
      scan_loop pages fuel r (data ++ r.items) (cnt + 1)

/-- The pagination part of DataExtraction.pull_data_from_dynamo: one
initial scan, then the token-driven loop. Returns the accumulated data and
the number of scan requests issued. -/
def pull_scan (pages : List (List Record)) : List Record × Nat :=
  let response := scanPage pages 0
  scan_loop pages pages.length response response.items 1

/-- The accumulated scan data. -/
def pull_data (pages : List (List Record)) : List Record :=
  (pull_scan pages).1

/-- One entry of table.key_schema: keys.get("KeyType", None) and
keys["AttributeName"] in the source. -/
structure KeySchemaEntry where
  KeyType : Option String
  AttributeName : String
  deriving DecidableEq, Repr

/-- The partition-key discovery loop of pull_data_from_dynamo: the local
variable pk starts unbound (none) and is assigned by every entry whose
KeyType is HASH, so the last such entry wins. -/
def findPK (key_schema : List KeySchemaEntry) : Option String :=
  List.foldl
    (fun pk ks => if ks.KeyType = some "HASH" then some ks.AttributeName else pk)
    none key_schema

/-- DataExtraction.pull_data_from_dynamo: discover the partition key from
the key schema, run the paginated scan, then transform. When no HASH entry
exists, the read of pk at the transform_data call raises UnboundLocalError
(the scan itself has already completed by then). -/
def pull_data_from_dynamo (key_schema : List KeySchemaEntry)
    (pages : List (List Record)) (now : Nat → String) :
    Except ETLError (List TransformedItem) :=
  let data := pull_data pages
  match findPK key_schema with
  | none => Except.error (ETLError.unboundLocalError "pk")
  | some pk => transform_data data pk now

/-- Character-list prefix test, embedding Python str.startswith. -/
def starts_with : List Char → List Char → Bool
  | [], _ => true
  | _ :: _, [] => false
  | p :: ps, c :: cs => p = c && starts_with ps cs

/-- table.startswith(pre) on strings. -/
def startswith (table pre : String) : Bool :=
  starts_with pre.data table.data

/-- The skip condition of extract_and_load:
environment == "dev" and not table.startswith("stg"). -/
def skipTable (environment table : String) : Bool :=
  environment == "dev" && !(startswith table "stg")

/-- A table is eligible when the skip condition does not fire. -/
def eligible (environment table : String) : Bool :=
  !(skipTable environment table)

/-- DataExtraction.extract_and_load: iterate over the listed tables,
skipping ineligible ones and running the per-table pipeline step; the
single outer except catches the first error, logs it and ends the run.
The result is the list of tables on which the step was invoked, together
with the logged error, if any; the function is total, so no exception ever
reaches the caller. -/
def extract_and_load (environment : String) (step : String → Except ETLError Unit) :
    List String → List String × Option ETLError
  | [] => ([], none)
  | t :: ts =>
    if skipTable environment t then extract_and_load environment step ts
    else
      match step t with
      | Except.error e => ([t], some e)
      | Except.ok _ =>
        match extract_and_load environment step ts with
        | (ps, r) => (t :: ps, r)

/-- Result rows of a warehouse statement. -/
abbrev Rows := List (List String)

/-- The observable state of the RedshiftConnector: the committed database
state, the statements sent to the cursor, and the error messages printed. -/
structure RSState (σ : Type) where
  db : σ
  issued : List String
  log : List String

/-- RedshiftConnector._execute_query over an abstract statement engine
sem (the warehouse backend): on success the statement's effect is
committed; on failure the transaction is rolled back, leaving the
committed state unchanged, the error is printed, and None is returned
instead of re-raising. In both cases the statement was sent to the
cursor. -/
def execute_query {σ : Type} (sem : String → σ → Except String (Option Rows × σ))
    (query : String) (st : RSState σ) : Option Rows × RSState σ :=
  match sem query st.db with
  | Except.ok (result, db2) =>
      (result, { db := db2, issued := st.issued ++ [query], log := st.log })
  | Except.error e =>
      (none, { db := st.db, issued := st.issued ++ [query],
               log := st.log ++ ["Error executing query: " ++ e] })

/-- The CREATE TABLE IF NOT EXISTS statement of
RedshiftConnector.create_table_if_exist (whitespace normalised). -/
def create_table_query (table_name : String) : String :=
  s!"CREATE TABLE IF NOT EXISTS {table_name} (id varchar, data varchar(max), createdAt datetime, updatedAt datetime, isDeleted boolean)"

/-- The TRUNCATE statement of RedshiftConnector.truncate_table. -/
def truncate_query (table_name : String) : String :=
  s!"TRUNCATE TABLE {table_name}"

/-- The COPY statement of RedshiftConnector.copy_s3_data (whitespace
normalised; \x27 is the single quote, \x22 the double quote). -/
def copy_query (table_name s3_path role_arn : String) : String :=
  s!"COPY {table_name} FROM \x27{s3_path}\x27 IAM_ROLE \x27{role_arn}\x27 delimiter \x27,\x27 ignoreheader 1 csv quote as \x27\x22\x27"

/-- RedshiftConnector.create_table_if_exist. -/
def create_table_if_exist {σ : Type} (sem : String → σ → Except String (Option Rows × σ))
    (table_name : String) (st : RSState σ) : RSState σ :=
  (execute_query sem (create_table_query table_name) st).2

/-- RedshiftConnector.truncate_table. -/
def truncate_table {σ : Type} (sem : String → σ → Except String (Option Rows × σ))
    (table_name : String) (st : RSState σ) : RSState σ :=
  (execute_query sem (truncate_query table_name) st).2

/-- RedshiftConnector.copy_s3_data: create-if-absent, truncate, COPY, in
that order, each through _execute_query. -/
def copy_s3_data {σ : Type} (sem : String → σ → Except String (Option Rows × σ))
    (s3_path table_name role_arn : String) (st : RSState σ) : RSState σ :=
  let st1 := create_table_if_exist sem table_name st
  let st2 := truncate_table sem table_name st1
  (execute_query sem (copy_query table_name s3_path role_arn) st2).2

/-- The warehouse table store, for end-to-end load semantics: each table
name maps to its rows when the table exists. The statement engine itself
is an external collaborator of the repository; its three statement shapes
are given their natural semantics below. -/
abbrev Warehouse := String → Option (List TransformedItem)

/-- Point update of a warehouse table. -/
def wh_update (wh : Warehouse) (t : String) (rows : List TransformedItem) : Warehouse :=
  fun u => if u = t then some rows else wh u

/-- Semantics of CREATE TABLE IF NOT EXISTS: create the table empty when
absent, leave it untouched when present. -/
def ensure_table (wh : Warehouse) (t : String) : Warehouse :=
  match wh t with
  | some _ => wh
  | none => wh_update wh t []

/-- Semantics of TRUNCATE TABLE: drop all rows. -/
def truncate_sem (wh : Warehouse) (t : String) : Warehouse :=
  wh_update wh t []

/-- Semantics of COPY: append the staged rows to the existing table. -/
def copy_sem (wh : Warehouse) (t : String) (staged : List TransformedItem) : Warehouse :=
  match wh t with
  | some rows => wh_update wh t (rows ++ staged)
  | none => wh

/-- The warehouse effect of copy_s3_data on table t with staged rows:
create-if-absent, then truncate, then COPY. -/
def load_from_staged (wh : Warehouse) (t : String) (staged : List TransformedItem) : Warehouse :=
  copy_sem (truncate_sem (ensure_table wh t) t) t staged

/-- The warehouse effect of one pipeline run over one source table: scan
(already materialised as items), transform with this run's clock, stage
and load into raw_<table>. A failing transform aborts before any load. -/
def run_once (items : List (List (String × String))) (pk : String) (now : Nat → String)
    (wh : Warehouse) (table : String) : Warehouse :=
  match transform_data items pk now with
  | Except.ok rows => load_from_staged wh ("raw_" ++ table) rows
  | Except.error _ => wh

/-- A JSON value, for the HTTP response body. -/
inductive Json where
  | str : String → Json
  | num : Int → Json
  | arr : List Json → Json

/-- The return value of the index handler in src/main.py: the Python
statement  return 200, "Hello World"  builds this tuple. -/
def index : Int × String := (200, "Hello World")

/-- The HTTP response for GET /, as FastAPI produces it: a non-Response
return value is passed through the JSON encoder, which encodes a tuple as
a JSON array of its encoded elements, served with the default status code
200 (FastAPI has no Flask-style body/status tuple convention). -/
def index_response : Nat × Json :=
  (200, Json.arr [Json.num index.1, Json.str index.2])

/-- The body asserted by test_index in src/test/test_main.py:
response.json() == "Hello World". -/
def test_index_expected_body : Json := Json.str "Hello World"

/-- Concrete clock oracle for witnesses. -/
def const_now : Nat → String := fun _ => "2024-01-01 00:00:00UTC"

/-- Concrete statement engine for witnesses: the statement BAD fails,
every other statement succeeds with no result rows. -/
def demo_sem : String → Nat → Except String (Option Rows × Nat) :=
  fun q n => if q = "BAD" then Except.error "boom" else Except.ok (none, n + 1)

/-- Concrete per-table pipeline step for witnesses: the table named bad
fails with a KeyError, every other table succeeds. -/
def demo_step : String → Except ETLError Unit :=
  fun t => if t = "bad" then Except.error (ETLError.keyError "id") else Except.ok ()

/-- Per-table step that always succeeds, for the eligibility claims. -/
def ok_step : String → Except ETLError Unit :=
  fun _ => Except.ok ()

/-- Concrete source data for witnesses: one record with partition key id. -/
def demo_items : List (List (String × String)) := [[("id", "1")]]

/-- Clock of a first run. -/
def now1 : Nat → String := fun _ => "2024-01-01 00:00:00UTC"

/-- Clock of a later second run, one second on. -/
def now2 : Nat → String := fun _ => "2024-01-01 00:00:01UTC"

/-- An initially empty warehouse. -/
def wh0 : Warehouse := fun _ => none

/-- The rows the first run stages for demo_items. -/
def demo_rows1 : List TransformedItem :=
  [{ row_id := "1", data := [("id", "1")], created := none,
     updated := "2024-01-01 00:00:00UTC", isDeleted := false }]

/-- The rows the second run stages for demo_items. -/
def demo_rows2 : List TransformedItem :=
  [{ row_id := "1", data := [("id", "1")], created := none,
     updated := "2024-01-01 00:00:01UTC", isDeleted := false }]

/-- Erase the updated timestamp of an envelope, for comparing the
clock-independent part of two runs. -/
def erase_updated (t : TransformedItem) : TransformedItem :=
  { t with updated := "" }

/-- The transform loop succeeds on records that all carry the partition
key, and produces the five-field envelope pointwise. -/
theorem transform_loop_ok (pk : String) (now : Nat → String) :
    ∀ (items : List (List (String × String))) (i : Nat),
      (∀ r ∈ items, (getAttr r pk).isSome = true) →
      ∃ ts, transform_loop pk now i items = Except.ok ts ∧
        ts.length = items.length ∧
        ∀ j r t, items[j]? = some r → ts[j]? = some t →
          getAttr r pk = some t.row_id ∧ t.data = r ∧
          t.created = getAttr r "created" ∧ t.updated = now (i + j) ∧
          t.isDeleted = false := by
  intro items
  induction items with
  | nil =>
    intro i h
    refine ⟨[], rfl, rfl, ?_⟩
    intro j r t hr ht
    simp at hr
  | cons item rest ih =>
    intro i h
    have hitem : (getAttr item pk).isSome = true := h item (by simp)
    obtain ⟨v, hv⟩ := Option.isSome_iff_exists.mp hitem
    have hrest : ∀ r ∈ rest, (getAttr r pk).isSome = true := by
      intro r hr
      exact h r (by simp [hr])
    obtain ⟨ts, hts, hlen, hspec⟩ := ih (i + 1) hrest
    refine ⟨{ row_id := v, data := item, created := getAttr item "created",
              updated := now i, isDeleted := false } :: ts, ?_, ?_, ?_⟩
    · simp [transform_loop, transform_item, hv, hts]
    · simp [hlen]
    · intro j r t hr ht
      cases j with
      | zero =>
        simp at hr ht
        subst hr
        subst ht
        exact ⟨hv, rfl, rfl, by simp, rfl⟩
      | succ j =>
        simp only [List.getElem?_cons_succ] at hr ht
        have hj := hspec j r t hr ht
        refine ⟨hj.1, hj.2.1, hj.2.2.1, ?_, hj.2.2.2.2⟩
        have : i + 1 + j = i + (j + 1) := by omega
        rw [← this]
        exact hj.2.2.2.1

/-- C1: for every list of raw records each containing the partition-key
attribute, transform_data succeeds and yields one envelope per record
having exactly the five fields of TransformedItem, with row_id the
partition-key value of the record, data the whole record unchanged,
created the record's own created attribute when present and none
otherwise, updated the iteration's wall-clock string, and isDeleted
false. -/
theorem C1_transform_envelope (items : List (List (String × String))) (pk : String)
    (now : Nat → String) (h : ∀ r ∈ items, (getAttr r pk).isSome = true) :
    ∃ ts, transform_data items pk now = Except.ok ts ∧
      ts.length = items.length ∧
      ∀ j r t, items[j]? = some r → ts[j]? = some t →
        getAttr r pk = some t.row_id ∧ t.data = r ∧
        t.created = getAttr r "created" ∧ t.updated = now j ∧
        t.isDeleted = false := by
  obtain ⟨ts, h1, h2, h3⟩ := transform_loop_ok pk now items 0 h
  refine ⟨ts, h1, h2, ?_⟩
  intro j r t hr ht
  simpa using h3 j r t hr ht

/-- C1 witness at the concrete record list demo_items. -/
theorem C1_transform_envelope_witness :
    ∃ ts, transform_data demo_items "id" const_now = Except.ok ts ∧
      ts.length = demo_items.length ∧
      ∀ j r t, demo_items[j]? = some r → ts[j]? = some t →
        getAttr r "id" = some t.row_id ∧ t.data = r ∧
        t.created = getAttr r "created" ∧ t.updated = const_now j ∧
        t.isDeleted = false :=
  C1_transform_envelope demo_items "id" const_now (by decide)

/-- Unfolding of the scan loop when the previous response carries a
continuation token: the next page is requested from it. -/
theorem scan_loop_some (pages : List (List Record)) (fuel : Nat)
    (response : ScanResponse) (data : List Record) (cnt k : Nat)
    (h : response.lastEvaluatedKey = some k) :
    scan_loop pages (fuel + 1) response data cnt =
      scan_loop pages fuel (scanPage pages k)
        (data ++ (scanPage pages k).items) (cnt + 1) := by
  cases response with
  | mk items tok =>
    cases tok with
    | none => simp at h
    | some k2 =>
      simp at h
      subst h
      rfl

/-- Unfolding of the scan loop when no token remains: the loop stops. -/
theorem scan_loop_stop (pages : List (List Record)) (fuel : Nat)
    (response : ScanResponse) (data : List Record) (cnt : Nat)
    (h : response.lastEvaluatedKey = none) :
    scan_loop pages (fuel + 1) response data cnt = (data, cnt) := by
  cases response with
  | mk items tok =>
    cases tok with
    | none => rfl
    | some k2 => simp at h

/-- Invariant of the token-driven scan loop: starting from page i with
enough fuel, the loop appends exactly the remaining pages in order and
issues one further request per remaining page. -/
theorem scan_loop_spec (pages : List (List Record)) :
    ∀ (fuel i : Nat) (data : List Record) (cnt : Nat),
      pages.length ≤ i + 1 + fuel →
      scan_loop pages fuel (scanPage pages i) data cnt =
        (data ++ (pages.drop (i + 1)).flatten, cnt + (pages.length - (i + 1))) := by
  intro fuel
  induction fuel with
  | zero =>
    intro i data cnt hle
    have hdrop : pages.drop (i + 1) = [] := List.drop_eq_nil_of_le (by omega)
    have hz : pages.length - (i + 1) = 0 := by omega
    simp [scan_loop, hdrop, hz]
  | succ fuel ih =>
    intro i data cnt hle
    by_cases hlt : i + 1 < pages.length
    · have htok : (scanPage pages i).lastEvaluatedKey = some (i + 1) := by
        simp [scanPage, hlt]
      have hitems : (scanPage pages (i + 1)).items = pages[i + 1] := by
        simp [scanPage, List.getD_eq_getElem?_getD, List.getElem?_eq_getElem hlt]
      have hrec := ih (i + 1) (data ++ (scanPage pages (i + 1)).items) (cnt + 1) (by omega)
      have h2 : i + 1 + 1 = i + 2 := rfl
      rw [h2] at hrec
      have hdrop : pages.drop (i + 1) = pages[i + 1] :: pages.drop (i + 2) :=
        List.drop_eq_getElem_cons hlt
      rw [scan_loop_some pages fuel _ data cnt (i + 1) htok, hrec, hdrop, hitems]
      rw [List.flatten_cons, ← List.append_assoc]
      have h3 : cnt + 1 + (pages.length - (i + 2)) = cnt + (pages.length - (i + 1)) := by
        omega
      rw [h3]
    · have htok : (scanPage pages i).lastEvaluatedKey = none := by
        simp [scanPage, hlt]
      have hdrop : pages.drop (i + 1) = [] := List.drop_eq_nil_of_le (by omega)
      have hz : pages.length - (i + 1) = 0 := by omega
      rw [scan_loop_stop pages fuel _ data cnt htok, hdrop, hz]
      simp

/-- C2: the paginated scan requests one page per available page — the
first request unconditionally, a further request whenever the previous
response carries a continuation token — and returns exactly the
concatenation of all pages in scan order, so no item is dropped or
duplicated. -/
theorem C2_pagination (pages : List (List Record)) :
    (pull_scan pages).1 = pages.flatten ∧ (pull_scan pages).2 = max 1 pages.length := by
  cases pages with
  | nil => exact ⟨rfl, rfl⟩
  | cons p ps =>
    have hs : pull_scan (p :: ps) =
        ((scanPage (p :: ps) 0).items ++ ((p :: ps).drop (0 + 1)).flatten,
          1 + ((p :: ps).length - (0 + 1))) := by
      rw [pull_scan]
      exact scan_loop_spec (p :: ps) (p :: ps).length 0 _ 1 (by simp)
    rw [hs]
    constructor
    · simp [scanPage]
    · simp [scanPage]
      omega

/-- The pk assignment loop leaves its accumulator untouched over entries
that are not hash entries. -/
theorem findPK_foldl_no_hash :
    ∀ (schema : List KeySchemaEntry) (acc : Option String),
      (∀ k ∈ schema, k.KeyType ≠ some "HASH") →
      List.foldl
        (fun pk ks => if ks.KeyType = some "HASH" then some ks.AttributeName else pk)
        acc schema = acc := by
  intro schema
  induction schema with
  | nil =>
    intro acc h
    rfl
  | cons k rest ih =>
    intro acc h
    have hk : k.KeyType ≠ some "HASH" := h k (by simp)
    have hrest : ∀ x ∈ rest, x.KeyType ≠ some "HASH" := by
      intro x hx
      exact h x (by simp [hx])
    simp only [List.foldl_cons]
    rw [if_neg hk]
    exact ih acc hrest

/-- Without any hash entry the pk local is never assigned. -/
theorem findPK_none (key_schema : List KeySchemaEntry)
    (h : ∀ k ∈ key_schema, k.KeyType ≠ some "HASH") :
    findPK key_schema = none :=
  findPK_foldl_no_hash key_schema none h

/-- With a hash entry followed only by non-hash entries, the pk local ends
up holding that entry's attribute name. -/
theorem findPK_last (pre : List KeySchemaEntry) (e : KeySchemaEntry)
    (suf : List KeySchemaEntry) (he : e.KeyType = some "HASH")
    (hsuf : ∀ k ∈ suf, k.KeyType ≠ some "HASH") :
    findPK (pre ++ e :: suf) = some e.AttributeName := by
  rw [findPK, List.foldl_append]
  simp only [List.foldl_cons]
  rw [if_pos he]
  exact findPK_foldl_no_hash suf (some e.AttributeName) hsuf

/-- C3 counterexample: on a key schema holding only a RANGE entry the scan
does fail, but with the unbound pk local variable, not with the
SchemaError the claim names. -/
theorem C3_counterexample :
    pull_data_from_dynamo [{ KeyType := some "RANGE", AttributeName := "sk" }]
        [[[("sk", "1")]]] const_now
      = Except.error (ETLError.unboundLocalError "pk") ∧
    pull_data_from_dynamo [{ KeyType := some "RANGE", AttributeName := "sk" }]
        [[[("sk", "1")]]] const_now
      ≠ Except.error ETLError.schemaError := by
  refine ⟨rfl, ?_⟩
  intro h
  exact ETLError.noConfusion (Except.error.inj h)

/-- C3 (amended): for every table whose key-schema metadata has no
hash/partition attribute, the scan fails — with the unbound-local error
for the never-assigned pk variable, not with a dedicated SchemaError — and
for every table whose key schema holds a hash attribute (with no later
hash entry, as in a well-formed schema with its unique hash key), the
partition key used for transformation is exactly that attribute's name. -/
theorem C3_schema_discovery (key_schema : List KeySchemaEntry)
    (pages : List (List Record)) (now : Nat → String) :
    ((∀ k ∈ key_schema, k.KeyType ≠ some "HASH") →
      pull_data_from_dynamo key_schema pages now =
        Except.error (ETLError.unboundLocalError "pk")) ∧
    (∀ pre e suf, key_schema = pre ++ e :: suf → e.KeyType = some "HASH" →
      (∀ k ∈ suf, k.KeyType ≠ some "HASH") →
      findPK key_schema = some e.AttributeName ∧
      pull_data_from_dynamo key_schema pages now =
        transform_data (pull_data pages) e.AttributeName now) := by
  constructor
  · intro h
    rw [pull_data_from_dynamo, findPK_none key_schema h]
  · intro pre e suf hsplit he hsuf
    have hfind : findPK key_schema = some e.AttributeName := by
      rw [hsplit]
      exact findPK_last pre e suf he hsuf
    refine ⟨hfind, ?_⟩
    rw [pull_data_from_dynamo, hfind]

/-- C3 witness at concrete schemas. -/
theorem C3_schema_discovery_witness :
    pull_data_from_dynamo [{ KeyType := some "RANGE", AttributeName := "sk" }]
        [] const_now = Except.error (ETLError.unboundLocalError "pk") ∧
    (findPK [{ KeyType := some "HASH", AttributeName := "id" }] = some "id" ∧
      pull_data_from_dynamo [{ KeyType := some "HASH", AttributeName := "id" }]
          [] const_now = transform_data (pull_data []) "id" const_now) :=
  ⟨(C3_schema_discovery [{ KeyType := some "RANGE", AttributeName := "sk" }]
        [] const_now).1 (by decide),
    (C3_schema_discovery [{ KeyType := some "HASH", AttributeName := "id" }]
        [] const_now).2 [] { KeyType := some "HASH", AttributeName := "id" } []
      rfl rfl (by decide)⟩

/-- C4: every statement the loader executes goes down one code path: on a
successful statement its effect is committed; on a failing statement the
transaction is rolled back so the committed database state is unchanged,
the error is logged, and None is returned to the caller instead of an
exception (execute_query is total). -/
theorem C4_execute_query {σ : Type} (sem : String → σ → Except String (Option Rows × σ))
    (query : String) (st : RSState σ) :
    (∀ result db2, sem query st.db = Except.ok (result, db2) →
      execute_query sem query st =
        (result, { db := db2, issued := st.issued ++ [query], log := st.log })) ∧
    (∀ e, sem query st.db = Except.error e →
      execute_query sem query st =
        (none, { db := st.db, issued := st.issued ++ [query],
                 log := st.log ++ ["Error executing query: " ++ e] })) := by
  constructor
  · intro result db2 h
    unfold execute_query
    rw [h]
  · intro e h
    unfold execute_query
    rw [h]

/-- C4 witness: a concrete succeeding statement and a concrete failing
statement against the demo statement engine. -/
theorem C4_execute_query_witness :
    execute_query demo_sem "OK" ⟨0, [], []⟩ = (none, ⟨1, ["OK"], []⟩) ∧
    execute_query demo_sem "BAD" ⟨0, [], []⟩ =
      (none, ⟨0, ["BAD"], ["Error executing query: boom"]⟩) :=
  ⟨(C4_execute_query demo_sem "OK" ⟨0, [], []⟩).1 none 1 rfl,
   (C4_execute_query demo_sem "BAD" ⟨0, [], []⟩).2 "boom" rfl⟩

/-- Aborting behaviour of the orchestrator loop: when every eligible table
before t succeeds and t fails, the loop runs exactly the eligible prefix
and t, logs the error of t, and returns without raising. -/
theorem extract_and_load_abort (environment : String)
    (step : String → Except ETLError Unit) (e : ETLError) :
    ∀ (pre : List String) (t : String) (post : List String),
      (∀ u ∈ pre, eligible environment u = true → step u = Except.ok ()) →
      eligible environment t = true →
      step t = Except.error e →
      extract_and_load environment step (pre ++ t :: post) =
        (pre.filter (eligible environment) ++ [t], some e) := by
  intro pre
  induction pre with
  | nil =>
    intro t post hpre ht hstep
    have hskip : skipTable environment t = false := by
      simpa [eligible] using ht
    simp [extract_and_load, hskip, hstep]
  | cons u pre ih =>
    intro t post hpre ht hstep
    have hrec := ih t post (fun x hx hex => hpre x (by simp [hx]) hex) ht hstep
    by_cases hu : skipTable environment u
    · have helig : eligible environment u = false := by simp [eligible, hu]
      simp [extract_and_load, hu, List.filter_cons, helig, hrec]
    · have helig : eligible environment u = true := by simp [eligible, hu]
      have hok : step u = Except.ok () := hpre u (by simp) helig
      simp [extract_and_load, hu, hok, hrec, List.filter_cons, helig]

/-- C5: when any eligible table's scan/transform/stage/upload/load step
raises, the orchestrator logs that error and the run ends: the tables
after the failing one are never processed, and extract_and_load still
returns a value (its single outer catch swallows the exception). -/
theorem C5_run_abort (environment : String) (step : String → Except ETLError Unit)
    (pre : List String) (t : String) (post : List String) (e : ETLError)
    (hpre : ∀ u ∈ pre, eligible environment u = true → step u = Except.ok ())
    (ht : eligible environment t = true)
    (hstep : step t = Except.error e) :
    extract_and_load environment step (pre ++ t :: post) =
      (pre.filter (eligible environment) ++ [t], some e) :=
  extract_and_load_abort environment step e pre t post hpre ht hstep

/-- C5 witness: the concrete table bad fails and the table orders after it
is never processed. -/
theorem C5_run_abort_witness :
    extract_and_load "prod" demo_step (["stg_a"] ++ "bad" :: ["orders"]) =
      (["stg_a", "bad"], some (ETLError.keyError "id")) :=
  C5_run_abort "prod" demo_step ["stg_a"] "bad" ["orders"] (ETLError.keyError "id")
    (by
      intro u hu hex
      simp at hu
      subst hu
      rfl)
    rfl rfl

/-- Every statement run through execute_query is recorded as sent to the
cursor, whatever the statement engine does with it. -/
theorem execute_query_issued {σ : Type}
    (sem : String → σ → Except String (Option Rows × σ))
    (query : String) (st : RSState σ) :
    ((execute_query sem query st).2).issued = st.issued ++ [query] := by
  unfold execute_query
  cases h : sem query st.db with
  | ok p =>
    obtain ⟨result, db2⟩ := p
    rfl
  | error e => rfl

/-- C6: one warehouse load issues exactly three statements in order — the
five-column CREATE TABLE IF NOT EXISTS, the TRUNCATE of the target table,
and the COPY referencing the staged path and the authority identifier with
comma delimiter, one header row skipped and double-quote quoting — for
every statement engine, including failing ones. -/
theorem C6_copy_sequence {σ : Type}
    (sem : String → σ → Except String (Option Rows × σ))
    (s3_path table_name role_arn : String) (st : RSState σ) :
    (copy_s3_data sem s3_path table_name role_arn st).issued =
      st.issued ++ [create_table_query table_name, truncate_query table_name,
                    copy_query table_name s3_path role_arn] := by
  show ((execute_query sem (copy_query table_name s3_path role_arn)
      (truncate_table sem table_name (create_table_if_exist sem table_name st))).2).issued = _
  rw [execute_query_issued, truncate_table, execute_query_issued,
    create_table_if_exist, execute_query_issued]
  simp

/-- A run in which every per-table step succeeds processes exactly the
eligible tables, in order, and logs no error. -/
theorem extract_and_load_all_ok (environment : String) :
    ∀ tables : List String,
      extract_and_load environment ok_step tables =
        (tables.filter (eligible environment), none) := by
  intro tables
  induction tables with
  | nil => rfl
  | cons t ts ih =>
    by_cases h : skipTable environment t
    · have helig : eligible environment t = false := by simp [eligible, h]
      simp [extract_and_load, h, List.filter_cons, helig, ih]
    · have helig : eligible environment t = true := by simp [eligible, h]
      simp [extract_and_load, h, ok_step, List.filter_cons, helig, ih]

/-- C7: a table is processed exactly when the environment is not dev or
its name begins with stg; in particular environment dev with tables
stg_users and orders processes only stg_users, while environment prod
processes both. -/
theorem C7_eligibility :
    (∀ environment table, eligible environment table =
      (environment != "dev" || startswith table "stg")) ∧
    (∀ environment tables, (extract_and_load environment ok_step tables).1 =
      tables.filter (eligible environment)) ∧
    (extract_and_load "dev" ok_step ["stg_users", "orders"]).1 = ["stg_users"] ∧
    (extract_and_load "prod" ok_step ["stg_users", "orders"]).1 =
      ["stg_users", "orders"] := by
  refine ⟨?_, ?_, by decide, by decide⟩
  · intro environment table
    rw [eligible, skipTable]
    cases h1 : environment == "dev" <;>
      cases h2 : startswith table "stg" <;>
        simp [h1, h2, bne]
  · intro environment tables
    rw [extract_and_load_all_ok environment tables]

/-- After one load, the target table holds exactly the staged rows,
whatever its prior contents: create-if-absent, truncate, copy. -/
theorem load_from_staged_rows (wh : Warehouse) (t : String)
    (staged : List TransformedItem) :
    load_from_staged wh t staged t = some staged := by
  have h1 : truncate_sem (ensure_table wh t) t t = some [] := by
    simp [truncate_sem, wh_update]
  unfold load_from_staged copy_sem
  rw [h1]
  simp [wh_update]

/-- Two transform runs over the same records at different clocks agree on
everything except the updated field. -/
theorem transform_loop_map_erase (pk : String) (nowa nowb : Nat → String) :
    ∀ (items : List (List (String × String))) (i : Nat)
      (r1 r2 : List TransformedItem),
      transform_loop pk nowa i items = Except.ok r1 →
      transform_loop pk nowb i items = Except.ok r2 →
      r1.map erase_updated = r2.map erase_updated := by
  intro items
  induction items with
  | nil =>
    intro i r1 r2 h1 h2
    simp [transform_loop] at h1 h2
    subst h1
    subst h2
    rfl
  | cons item rest ih =>
    intro i r1 r2 h1 h2
    cases hget : getAttr item pk with
    | none =>
      simp [transform_loop, transform_item, hget] at h1
    | some v =>
      simp only [transform_loop, transform_item, hget] at h1 h2
      cases hr1 : transform_loop pk nowa (i + 1) rest with
      | error e =>
        rw [hr1] at h1
        simp at h1
      | ok ts1 =>
        rw [hr1] at h1
        cases hr2 : transform_loop pk nowb (i + 1) rest with
        | error e =>
          rw [hr2] at h2
          simp at h2
        | ok ts2 =>
          rw [hr2] at h2
          simp at h1 h2
          subst h1
          subst h2
          simp [List.map_cons, erase_updated]
          exact ih (i + 1) ts1 ts2 hr1 hr2

/-- C8 counterexample: two runs of the pipeline over the same source data,
one second apart, leave different rows in the warehouse table, because the
updated field records each run's transform time. -/
theorem C8_counterexample :
    run_once demo_items "id" now2 (run_once demo_items "id" now1 wh0 "users")
        "users" "raw_users" ≠
      run_once demo_items "id" now1 wh0 "users" "raw_users" := by
  decide

/-- C8 (amended): the pipeline is truncate-and-reload — after each run the
warehouse table raw_<table> holds exactly that run's transformed rows,
whatever was there before — so two runs over unchanged source data agree
on every field except updated, which carries each run's transform-time
wall clock; with identical clock readings the two states are identical. -/
theorem C8_truncate_reload (items : List (List (String × String))) (pk : String)
    (nowa nowb : Nat → String) (wh : Warehouse) (table : String)
    (rows1 rows2 : List TransformedItem)
    (h1 : transform_data items pk nowa = Except.ok rows1)
    (h2 : transform_data items pk nowb = Except.ok rows2) :
    run_once items pk nowa wh table ("raw_" ++ table) = some rows1 ∧
    run_once items pk nowb (run_once items pk nowa wh table) table
        ("raw_" ++ table) = some rows2 ∧
    rows1.map erase_updated = rows2.map erase_updated ∧
    (nowa = nowb → rows1 = rows2) := by
  refine ⟨?_, ?_, ?_, ?_⟩
  · unfold run_once
    rw [h1]
    exact load_from_staged_rows wh ("raw_" ++ table) rows1
  · unfold run_once
    rw [h2]
    exact load_from_staged_rows _ ("raw_" ++ table) rows2
  · exact transform_loop_map_erase pk nowa nowb items 0 rows1 rows2 h1 h2
  · intro hnn
    subst hnn
    rw [h1] at h2
    exact Except.ok.inj h2

/-- C8 witness: the concrete two-run scenario behind the counterexample,
through the amended theorem. -/
theorem C8_truncate_reload_witness :
    run_once demo_items "id" now1 wh0 "users" ("raw_" ++ "users") = some demo_rows1 ∧
    run_once demo_items "id" now2 (run_once demo_items "id" now1 wh0 "users")
        "users" ("raw_" ++ "users") = some demo_rows2 ∧
    demo_rows1.map erase_updated = demo_rows2.map erase_updated ∧
    (now1 = now2 → demo_rows1 = demo_rows2) :=
  C8_truncate_reload demo_items "id" now1 now2 wh0 "users" demo_rows1 demo_rows2
    rfl rfl

/-- C9: the index handler returns the tuple (200, Hello World); FastAPI
serializes it as the JSON array [200, Hello World] in a response with
status 200, so the body is not the bare string Hello World asserted by the
claim and by the repository's own test_index. -/
theorem C9_index_body :
    index_response = (200, Json.arr [Json.num 200, Json.str "Hello World"]) ∧
    index_response.2 ≠ test_index_expected_body := by
  refine ⟨rfl, ?_⟩
  intro h
  exact Json.noConfusion h

/-- The transform loop fails with KeyError at the first record lacking the
partition key, whatever records come after it. -/
theorem transform_loop_missing_pk (pk : String) (now : Nat → String) :
    ∀ (pre : List (List (String × String))) (i : Nat)
      (bad : List (String × String)) (post : List (List (String × String))),
      (∀ r ∈ pre, (getAttr r pk).isSome = true) →
      getAttr bad pk = none →
      transform_loop pk now i (pre ++ bad :: post) =
        Except.error (ETLError.keyError pk) := by
  intro pre
  induction pre with
  | nil =>
    intro i bad post hpre hbad
    simp [transform_loop, transform_item, hbad]
  | cons item rest ih =>
    intro i bad post hpre hbad
    obtain ⟨v, hv⟩ := Option.isSome_iff_exists.mp (hpre item (by simp))
    have hrec := ih (i + 1) bad post (fun r hr => hpre r (by simp [hr])) hbad
    simp [transform_loop, transform_item, hv, hrec]

/-- C10: a raw record lacking the discovered partition key makes the
transform step fail with a KeyError for that key — it neither skips the
record nor raises SchemaError — and under the orchestrator's outer catch a
table failing with that KeyError ends the whole run: the tables after it
are never processed and no exception propagates. -/
theorem C10_missing_pk_aborts (pk : String) (now : Nat → String)
    (pre : List (List (String × String))) (bad : List (String × String))
    (post : List (List (String × String)))
    (hpre : ∀ r ∈ pre, (getAttr r pk).isSome = true)
    (hbad : getAttr bad pk = none) :
    transform_data (pre ++ bad :: post) pk now =
        Except.error (ETLError.keyError pk) ∧
    transform_data (pre ++ bad :: post) pk now ≠
        Except.error ETLError.schemaError ∧
    (∀ environment step tpre t tpost,
      (∀ u ∈ tpre, eligible environment u = true → step u = Except.ok ()) →
      eligible environment t = true →
      step t = Except.error (ETLError.keyError pk) →
      extract_and_load environment step (tpre ++ t :: tpost) =
        (tpre.filter (eligible environment) ++ [t],
          some (ETLError.keyError pk))) := by
  have hmain := transform_loop_missing_pk pk now pre 0 bad post hpre hbad
  refine ⟨hmain, ?_, ?_⟩
  · intro h
    exact ETLError.noConfusion (Except.error.inj (hmain.symm.trans h))
  · intro environment step tpre t tpost h1 h2 h3
    exact extract_and_load_abort environment step (ETLError.keyError pk)
      tpre t tpost h1 h2 h3

/-- C10 witness: a concrete record without the partition key. -/
theorem C10_missing_pk_aborts_witness :
    transform_data ([] ++ [("x", "1")] :: []) "id" const_now =
        Except.error (ETLError.keyError "id") ∧
    transform_data ([] ++ [("x", "1")] :: []) "id" const_now ≠
        Except.error ETLError.schemaError :=
  ⟨(C10_missing_pk_aborts "id" const_now [] [("x", "1")] [] (by simp) rfl).1,
   (C10_missing_pk_aborts "id" const_now [] [("x", "1")] [] (by simp) rfl).2.1⟩
